import Mathlib

/-!
Verification of the Bevor-MCP repository: a shallow embedding in Lean 4 of
the devtools service (toolchain detection, build/test command dispatch, the
subprocess runner), the Bevor API client (bootstrap state machine, the
multi-candidate folder-upload endpoint probing, the SSE chat-stream
reassembly) and the server's double-checked lazy initialization guard,
together with proofs about the behaviour these components exhibit.

Sources embedded here:
  - src/bevor_mcp/services/devtools/service.py  (DevToolsService)
  - src/bevor_mcp/services/devtools/runner.py   (run_command)
  - src/services/devtools/adapters/foundry.py, hardhat.py and
    src/bevor_mcp/services/devtools/adapters/truffle.py
  - src/bevor_mcp/bevor_api/client.py           (BevorApiClient)
  - src/bevor_mcp/server.py                     (guarded initialization,
    chat request handling)
-/

/-! ## Python value model

Decoded JSON/Python values as they flow through the client: `none` is
Python `None`, objects are dicts with string keys.  `truthy` is Python
truthiness, `pyOr` is Python's short-circuiting `or` expression, and
`pyDictGet` is `dict.get(key)` returning `None` when the key is absent.
(Python raises `AttributeError` when `.get` is called on a non-dict; the
client only ever calls `.get` on values guarded by `x or {}` or an
`isinstance(x, dict)` check, so theorems about unguarded spots carry a
well-formedness hypothesis that the value is a dict whenever truthy.) -/

inductive PyVal where
  | null
  | bool (b : Bool)
  | num (n : Int)
  | str (s : String)
  | arr (xs : List PyVal)
  | obj (fields : List (String × PyVal))

def truthy : PyVal → Bool
  | .null => false
  | .bool b => b
  | .num n => n != 0
  | .str s => s != ""
  | .arr xs => !xs.isEmpty
  | .obj fields => !fields.isEmpty

def isObj : PyVal → Bool
  | .obj _ => true
  | _ => false

def jlookup : List (String × PyVal) → String → Option PyVal
  | [], _ => none
  | (k, v) :: rest, key => if k = key then some v else jlookup rest key

/-- Python `d.get(key)`: `None` when absent (and, in this model, on non-dicts). -/
def pyDictGet (j : PyVal) (k : String) : PyVal :=
  match j with
  | .obj fields => (jlookup fields k).getD .null
  | _ => .null

/-- Python `d.get(key, default)`. -/
def pyDictGetD (j : PyVal) (k : String) (dflt : PyVal) : PyVal :=
  match j with
  | .obj fields => (jlookup fields k).getD dflt
  | _ => dflt

/-- Python `a or b`. -/
def pyOr (a b : PyVal) : PyVal := if truthy a then a else b

/-- Python `x or {}`, as used to guard `.get` calls. -/
def pyOrEmptyObj (j : PyVal) : PyVal := if truthy j then j else .obj []

mutual

/-- Python `repr` of a decoded JSON value (strings are naively
single-quoted; the embedded code never feeds quote-bearing strings to
`repr`). -/
def pyRepr : PyVal → String
  | .null => "None"
  | .bool true => "True"
  | .bool false => "False"
  | .num n => toString n
  | .str s => "\x27" ++ s ++ "\x27"
  | .arr xs => "[" ++ pyReprList xs ++ "]"
  | .obj fields => "\x7b" ++ pyReprFields fields ++ "\x7d"

def pyReprList : List PyVal → String
  | [] => ""
  | [x] => pyRepr x
  | x :: y :: rest => pyRepr x ++ ", " ++ pyReprList (y :: rest)

def pyReprFields : List (String × PyVal) → String
  | [] => ""
  | [(k, v)] => "\x27" ++ k ++ "\x27: " ++ pyRepr v
  | (k, v) :: f :: rest => "\x27" ++ k ++ "\x27: " ++ pyRepr v ++ ", " ++ pyReprFields (f :: rest)

end

/-- Python `str()` of a decoded JSON value. -/
def pyStr : PyVal → String
  | .str s => s
  | v => pyRepr v

/-! ## Toolchain adapters

From `src/services/devtools/adapters/foundry.py`, `hardhat.py` and
`src/bevor_mcp/services/devtools/adapters/truffle.py`.  The three
stateless adapter objects are a closed variant, so they are embedded as
an inductive `Tool`.  The filesystem is modelled as the list of existing
paths; `(root / "x").exists()` becomes membership of the joined path. -/

inductive Tool where
  | foundry
  | hardhat
  | truffle
deriving DecidableEq

def Tool.name : Tool → String
  | .foundry => "foundry"
  | .hardhat => "hardhat"
  | .truffle => "truffle"

def pathJoin (a b : String) : String := a ++ "/" ++ b

def Tool.is_applicable : Tool → List String → String → Bool
  | .foundry, fs, dir => fs.contains (pathJoin dir "foundry.toml")
  | .hardhat, fs, dir =>
      (fs.contains (pathJoin dir "hardhat.config.js")
        || fs.contains (pathJoin dir "hardhat.config.ts"))
      || fs.contains (pathJoin (pathJoin (pathJoin dir "node_modules") ".bin") "hardhat")
  | .truffle, fs, dir =>
      (fs.contains (pathJoin dir "truffle-config.js")
        || fs.contains (pathJoin dir "truffle.js"))
      || fs.contains (pathJoin (pathJoin (pathJoin dir "node_modules") ".bin") "truffle")

def Tool.build_command : Tool → List String
  | .foundry => ["forge", "build"]
  | .hardhat => ["npx", "hardhat", "compile"]
  | .truffle => ["npx", "truffle", "build"]

def Tool.test_command : Tool → List String
  | .foundry => ["forge", "test"]
  | .hardhat => ["npx", "hardhat", "test"]
  | .truffle => ["npx", "truffle", "test"]

/-! ## Devtools service

From `src/bevor_mcp/services/devtools/service.py`. -/

def DEFAULT_ADAPTERS : List Tool := [.foundry, .hardhat, .truffle]

/-- Model of `DevToolsService.detect`: filter the (default) adapter list by
applicability and return the head, raising `RuntimeError` when empty. -/
def detect (fs : List String) (dir : String) : Except String Tool :=
  match DEFAULT_ADAPTERS.filter (fun a => a.is_applicable fs dir) with
  | [] => .error "No supported dev tool detected in project directory"
  | a :: _ => .ok a

/-- Python `str.lower()` (ASCII range; every registered tool name and the
overrides of interest are ASCII). -/
def pyCharLower (c : Char) : Char :=
  if 65 ≤ c.toNat ∧ c.toNat ≤ 90 then Char.ofNat (c.toNat + 32) else c

def pyLower (s : String) : String := ⟨s.data.map pyCharLower⟩

/-- Python `repr` of a list of strings, as interpolated into the
unknown-tool error message. -/
def pyStrListRepr (xs : List String) : String :=
  "[" ++ String.intercalate ", " (xs.map (fun s => "\x27" ++ s ++ "\x27")) ++ "]"

def unknown_tool_message (tool : String) : String :=
  "Unknown tool \x27" ++ tool ++ "\x27. Supported: "
    ++ pyStrListRepr (DEFAULT_ADAPTERS.map Tool.name)

/-- Model of `DevToolsService._get_adapter`: Python's `if tool:` treats the empty
string like `None`, so an empty override falls through to `detect`. -/
def get_adapter (fs : List String) (dir : String) (tool : Option String) : Except String Tool :=
  match tool with
  | some t =>
      if t = "" then detect fs dir
      else
        match DEFAULT_ADAPTERS.find? (fun a => pyLower a.name == pyLower t) with
        | some a => .ok a
        | none => .error (unknown_tool_message t)
  | none => detect fs dir

/-- The lookup exactly as claimed: any explicit override (empty or not) is
resolved by case-insensitive name match, with the unknown-tool error on no
match; `detect` runs only when no override is given at all. -/
def get_adapter_claimed (fs : List String) (dir : String) (tool : Option String) :
    Except String Tool :=
  match tool with
  | some t =>
      match DEFAULT_ADAPTERS.find? (fun a => pyLower a.name == pyLower t) with
      | some a => .ok a
      | none => .error (unknown_tool_message t)
  | none => detect fs dir

/-! ## Command runner

From `src/bevor_mcp/services/devtools/runner.py`.  The spawned process is
an external collaborator; its behaviour is the model's input.  `completes`
is `proc.communicate` returning within the timeout, `timesOut` is
`subprocess.TimeoutExpired` followed by `proc.kill()` and a drain of the
output already produced. -/

inductive ProcOutcome where
  | completes (code : Int) (out err : String)
  | timesOut (out err : String)

inductive SpawnOutcome where
  | spawnFailure (msg : String)
  | spawned (p : ProcOutcome)

def RUN_COMMAND_DEFAULT_TIMEOUT : Nat := 900

/-- The body of `run_command` after a successful `subprocess.Popen`. -/
def run_command (timeout : Nat) (p : ProcOutcome) : Int × String × String :=
  match p with
  | .completes c out err => (c, out, err)
  | .timesOut out err => (124, out, "Timeout after " ++ toString timeout ++ "s\n" ++ err)

/-- Model of `run_command` including the spawn: only `subprocess.Popen` itself can
raise, every spawned process produces a structured triple. -/
def run_command_full (timeout : Nat) (s : SpawnOutcome) : Except String (Int × String × String) :=
  match s with
  | .spawnFailure m => .error m
  | .spawned p => .ok (run_command timeout p)

/-! ## Theorems: devtools service and runner -/

/-- Claim C6: `detect` fails with the no-toolchain-detected condition
exactly when zero adapters are applicable, and otherwise returns the first
applicable adapter in the fixed precedence order Foundry > Hardhat >
Truffle; in particular with both a Foundry and a Hardhat marker present it
returns Foundry. -/
theorem detect_first_applicable_precedence (fs : List String) (dir : String) :
    (detect fs dir = Except.error "No supported dev tool detected in project directory"
      ↔ (Tool.foundry.is_applicable fs dir = false
          ∧ Tool.hardhat.is_applicable fs dir = false
          ∧ Tool.truffle.is_applicable fs dir = false))
    ∧ (Tool.foundry.is_applicable fs dir = true → detect fs dir = Except.ok Tool.foundry)
    ∧ (Tool.foundry.is_applicable fs dir = false → Tool.hardhat.is_applicable fs dir = true →
        detect fs dir = Except.ok Tool.hardhat)
    ∧ (Tool.foundry.is_applicable fs dir = false → Tool.hardhat.is_applicable fs dir = false →
        Tool.truffle.is_applicable fs dir = true → detect fs dir = Except.ok Tool.truffle)
    ∧ (Tool.foundry.is_applicable fs dir = true → Tool.hardhat.is_applicable fs dir = true →
        detect fs dir = Except.ok Tool.foundry) := by
  cases hf : Tool.foundry.is_applicable fs dir <;>
    cases hh : Tool.hardhat.is_applicable fs dir <;>
      cases ht : Tool.truffle.is_applicable fs dir <;>
        simp [detect, DEFAULT_ADAPTERS, List.filter, hf, hh, ht]

/-- Witness for C6: with both a Foundry marker and a Hardhat marker present
in the project directory, `detect` returns the Foundry adapter. -/
theorem detect_first_applicable_precedence_witness :
    Tool.foundry.is_applicable ["p/foundry.toml", "p/hardhat.config.js"] "p" = true
    ∧ Tool.hardhat.is_applicable ["p/foundry.toml", "p/hardhat.config.js"] "p" = true
    ∧ detect ["p/foundry.toml", "p/hardhat.config.js"] "p" = Except.ok Tool.foundry :=
  ⟨by decide, by decide,
    (detect_first_applicable_precedence ["p/foundry.toml", "p/hardhat.config.js"] "p").2.2.2.2
      (by decide) (by decide)⟩

/-- The marker paths the claim documents for each adapter, relative to the
project root. -/
def marker_paths : Tool → String → List String
  | .foundry, dir => [pathJoin dir "foundry.toml"]
  | .hardhat, dir =>
      [pathJoin dir "hardhat.config.js", pathJoin dir "hardhat.config.ts",
        pathJoin (pathJoin (pathJoin dir "node_modules") ".bin") "hardhat"]
  | .truffle, dir =>
      [pathJoin dir "truffle-config.js", pathJoin dir "truffle.js",
        pathJoin (pathJoin (pathJoin dir "node_modules") ".bin") "truffle"]

/-- Claim C7: each adapter's `is_applicable` is true iff one of its
documented marker paths exists in the filesystem, and false otherwise. -/
theorem is_applicable_iff_marker_exists (t : Tool) (fs : List String) (dir : String) :
    t.is_applicable fs dir = (marker_paths t dir).any (fun p => fs.contains p) := by
  cases t <;> simp [Tool.is_applicable, marker_paths, List.any, Bool.or_assoc]

/-- Counterexample for C8: the empty string is an explicit override that
matches no adapter name, yet `_get_adapter` falls through to `detect`
(Python's `if tool:` is false for `""`) and happily returns the detected
Foundry adapter instead of the unknown-tool error the claim requires. -/
theorem get_adapter_empty_override_counterexample :
    get_adapter ["d/foundry.toml"] "d" (some "") = Except.ok Tool.foundry
    ∧ get_adapter_claimed ["d/foundry.toml"] "d" (some "")
        = Except.error (unknown_tool_message "")
    ∧ (get_adapter ["d/foundry.toml"] "d" (some "")
        ≠ get_adapter_claimed ["d/foundry.toml"] "d" (some "")) := by
  refine ⟨rfl, rfl, ?_⟩
  intro h
  exact Except.noConfusion h

/-- Claim C8 (amended): for every non-empty explicit tool override the
service resolves the adapter by case-insensitive name match against the
registered adapters and fails with the unknown-tool error (listing all
registered names) when none matches; `detect` is consulted exactly when
the override is absent or the empty string. -/
theorem get_adapter_override_amended (fs : List String) (dir : String) (t : String)
    (h : ¬ t = "") :
    get_adapter fs dir (some t) = get_adapter_claimed fs dir (some t)
    ∧ get_adapter fs dir none = detect fs dir
    ∧ get_adapter fs dir (some "") = detect fs dir := by
  refine ⟨?_, rfl, rfl⟩
  simp [get_adapter, get_adapter_claimed, h]

/-- Witness for C8 (amended): a non-empty override is matched
case-insensitively. -/
theorem get_adapter_override_amended_witness :
    ¬ "FOUNDRY" = ""
    ∧ get_adapter [] "d" (some "FOUNDRY") = get_adapter_claimed [] "d" (some "FOUNDRY")
    ∧ get_adapter [] "d" (some "FOUNDRY") = Except.ok Tool.foundry :=
  ⟨by decide, (get_adapter_override_amended [] "d" "FOUNDRY" (by decide)).1, rfl⟩

/-- Claim C9: once the process spawns, `run_command` never raises: normal
completion returns the exit code with the captured output, a timeout
returns exit code 124 with stderr prefixed by the `Timeout after Ns`
marker followed by the accumulated stderr, and only a spawn failure is
ever surfaced as an error; the default timeout is 900 seconds. -/
theorem run_command_structured_outcomes (timeout : Nat) :
    (∀ c out err, run_command timeout (ProcOutcome.completes c out err) = (c, out, err))
    ∧ (∀ out err, run_command timeout (ProcOutcome.timesOut out err)
        = (124, out, "Timeout after " ++ toString timeout ++ "s\n" ++ err))
    ∧ (∀ s r, run_command_full timeout s = Except.ok r → ∃ p, s = SpawnOutcome.spawned p)
    ∧ (∀ s m, run_command_full timeout s = Except.error m → s = SpawnOutcome.spawnFailure m)
    ∧ RUN_COMMAND_DEFAULT_TIMEOUT = 900 := by
  refine ⟨fun c out err => rfl, fun out err => rfl, ?_, ?_, rfl⟩
  · intro s r hr
    cases s with
    | spawnFailure m => exact absurd hr (by simp [run_command_full])
    | spawned p => exact ⟨p, rfl⟩
  · intro s m hm
    cases s with
    | spawnFailure m2 =>
        simp [run_command_full] at hm
        rw [hm]
    | spawned p => exact absurd hm (by simp [run_command_full])

/-- Witness for C9: a one-second timeout of a process that produced some
output yields exit code 124 and the marked stderr. -/
theorem run_command_structured_outcomes_witness :
    run_command 1 (ProcOutcome.timesOut "partial out" "partial err")
      = (124, "partial out", "Timeout after 1s\npartial err") :=
  (run_command_structured_outcomes 1).2.1 "partial out" "partial err"

/-! ## Bevor API client: bootstrap state machine

From `src/bevor_mcp/bevor_api/client.py`, `BevorApiClient.create`.  The
remote backend is an external collaborator, so the three stage responses
(decoded JSON bodies, as `_create_project` / `versions_create_folder` /
`chat_with_version` return them) are the model's input.  The diagnostic
`last_*_response` fields carry no invariant and are omitted. -/

structure ClientState where
  project_id : PyVal
  contracts_folder_path : PyVal
  version_mapping_id : PyVal
  chat_id : PyVal

structure BootstrapEnv where
  projectResp : PyVal
  versionResp : PyVal
  chatResp : PyVal

/-- Stage 1 id extraction:
`(project_resp or {}).get("id") or (project_resp or {}).get("project_id")
or self.project_id`. -/
def stage1_project_id (old : PyVal) (presp : PyVal) : PyVal :=
  pyOr (pyDictGet (pyOrEmptyObj presp) "id")
    (pyOr (pyDictGet (pyOrEmptyObj presp) "project_id") old)

/-- Stage 2 id extraction over `vr = version_resp or {}` and the nested
`data` envelope. -/
def extract_version_mapping_id (vresp : PyVal) : PyVal :=
  let vr := pyOrEmptyObj vresp
  let dataObj := pyOrEmptyObj (pyDictGetD vr "data" (.obj []))
  pyOr (pyDictGet vr "version_mapping_id")
    (pyOr (pyDictGet vr "version_id")
      (pyOr (pyDictGet vr "id")
        (pyOr (pyDictGet dataObj "version_mapping_id")
          (pyOr (pyDictGet dataObj "version_id") (pyDictGet dataObj "id")))))

/-- Model of `BevorApiClient.create`: ensure a project id, then — whenever a
contracts folder path was supplied, regardless of whether a project id was
obtained — upload the folder and store the extracted version mapping id,
and open a chat only when that id is truthy. -/
def create (s : ClientState) (env : BootstrapEnv) : ClientState :=
  let s1 :=
    if truthy s.project_id then s
    else { s with project_id := stage1_project_id s.project_id env.projectResp }
  if truthy s1.contracts_folder_path then
    let vmid := extract_version_mapping_id env.versionResp
    let s2 := { s1 with version_mapping_id := vmid }
    if truthy vmid then
      if isObj env.chatResp then
        { s2 with
          chat_id := pyOr (pyDictGet env.chatResp "id") (pyDictGet env.chatResp "chat_id") }
      else s2
    else s2
  else s1

/-- Responses on which the Python code runs without an `AttributeError`
from `.get` on a truthy non-dict (all the shapes the claims speak of). -/
def envWF (env : BootstrapEnv) : Bool :=
  (!truthy env.projectResp || isObj env.projectResp)
    && (!truthy env.versionResp || isObj env.versionResp)
    && (let d := pyDictGetD (pyOrEmptyObj env.versionResp) "data" (.obj [])
        !truthy d || isObj d)

/-! ## Bevor API client: folder upload with candidate-path probing

`versions_create_folder`: the backend's reply to each POST is the model's
input, indexed by endpoint path and multipart field name. -/

inductive ReqOutcome where
  | exn (msg : String)
  | resp (status : Nat) (bodyJson : Option PyVal) (text : String)

def candidate_paths (project_id : String) : List String :=
  ["/versions/create/folder", "/versions/create",
    "/projects/" ++ project_id ++ "/versions", "/versions"]

def files_field_variants : List String := ["files", "contracts", "sources"]

/-- All attempts in issue order: candidate paths outer, field-name
variants inner. -/
def upload_attempts (project_id : String) : List (String × String) :=
  (candidate_paths project_id).flatMap (fun p => files_field_variants.map (fun v => (p, v)))

/-- Python `resp.json()` with the `except ValueError` fallback
`{"status_code": ..., "text": ...}`. -/
def renderResp (status : Nat) (bodyJson : Option PyVal) (text : String) : PyVal :=
  match bodyJson with
  | some j => j
  | none => .obj [("status_code", .num status), ("text", .str text)]

def renderOutcome : ReqOutcome → PyVal
  | .exn e => .obj [("error", .str e)]
  | .resp status bodyJson text => renderResp status bodyJson text

def statusIsSuccess (status : Nat) : Bool :=
  (200 ≤ status && status < 300) && status != 204

/-- The nested loop of `versions_create_folder`, carrying `last_resp`. -/
def vcf_go (f : String → String → ReqOutcome) :
    List (String × String) → Option ReqOutcome → PyVal
  | [], last =>
      match last with
      | some o => renderOutcome o
      | none => .obj [("error", .str "No response from versions endpoint")]
  | (p, fld) :: rest, _last =>
      match f p fld with
      | .exn e => .obj [("error", .str e)]
      | .resp status bodyJson text =>
          if statusIsSuccess status then renderResp status bodyJson text
          else if status = 404 then vcf_go f rest (some (.resp status bodyJson text))
          else renderResp status bodyJson text

def versions_create_folder (f : String → String → ReqOutcome) (project_id : String) : PyVal :=
  vcf_go f (upload_attempts project_id) none

/-- Status of a non-exception outcome (junk value on exceptions; theorems
about it carry a no-exception hypothesis). -/
def outcomeStatus : ReqOutcome → Nat
  | .exn _ => 0
  | .resp status _ _ => status

def isExn : ReqOutcome → Bool
  | .exn _ => true
  | .resp _ _ _ => false

/-! ## Bevor API client: chat stream reassembly

`chat_contract`: the HTTP layer (requests) is the external collaborator,
so the model's input is the attempt outcome — a transport exception, or a
response with a status code, the decoded event lines (`iter_lines` output)
and the raw body text.  `json.loads` is likewise external and is injected
as a `parse` function mapping a payload string to its decoded value (or
`none` when it is not valid JSON).  String primitives that Python applies
to the (ASCII) event lines are modelled on the character lists. -/

def DATA_PREFIX : String := "data: "

def strStartsWith (s pre : String) : Bool := pre.data.isPrefixOf s.data

def strDropChars (s : String) (n : Nat) : String := ⟨s.data.drop n⟩

def isPySpace (c : Char) : Bool := c = ' ' || c = '\t' || c = '\n' || c = '\r'

/-- Python `str.strip()` (common whitespace). -/
def pyStrip (s : String) : String :=
  ⟨((s.data.dropWhile isPySpace).reverse.dropWhile isPySpace).reverse⟩

/-- The text a `data: `-payload contributes: the value under the first key
among `content`, `text`, `message`, `response` whose value is truthy
(`.get(a) or .get(b) or ...` followed by `if content:`), stringified; the
raw payload itself when it is not JSON; nothing when it is JSON but not a
dict or no key holds a truthy value. -/
def sse_content_fragment (parse : String → Option PyVal) (payload : String) : String :=
  match parse payload with
  | some j =>
      if isObj j then
        let c := pyOr (pyDictGet j "content")
          (pyOr (pyDictGet j "text") (pyOr (pyDictGet j "message") (pyDictGet j "response")))
        if truthy c then pyStr c else ""
      else ""
  | none => payload

/-- The streaming loop of `chat_contract`, accumulating `full_response`. -/
def sseAccum (parse : String → Option PyVal) : List String → String → String
  | [], acc => acc
  | l :: rest, acc =>
      if l = "" then sseAccum parse rest acc
      else if strStartsWith l DATA_PREFIX then
        if pyStrip (strDropChars l 6) = "[DONE]" then acc
        else sseAccum parse rest (acc ++ sse_content_fragment parse (strDropChars l 6))
      else sseAccum parse rest (acc ++ l)

inductive HttpAttempt where
  | exn (msg : String)
  | resp (status : Nat) (lines : List String) (body : String)

/-- Model of `BevorApiClient.chat_contract` after the POST: every path returns a
dict — `{"response": ...}` on accumulated stream text, the parsed body as
a fallback, or an `{"error": ...}` envelope. -/
def chat_contract (parse : String → Option PyVal) (att : HttpAttempt) : PyVal :=
  match att with
  | .exn e => .obj [("error", .str e)]
  | .resp status lines body =>
      if status ≠ 200 then
        match parse body with
        | some j => .obj [("error", j)]
        | none => .obj [("error", .str ("HTTP " ++ toString status ++ ": " ++ body))]
      else
        let full := sseAccum parse lines ""
        if pyStrip full ≠ "" then .obj [("response", .str (pyStrip full))]
        else
          match parse body with
          | some j => j
          | none => .obj [("error", .str "No valid response received")]

/-- The fragment extraction exactly as the claim words it: the value under
the first PRESENT key among `content`, `text`, `message`, `response`,
regardless of truthiness. -/
def sse_claim_fragment (parse : String → Option PyVal) (payload : String) : String :=
  match parse payload with
  | some j =>
      match j with
      | .obj fields =>
          match ((jlookup fields "content").orElse (fun _ => jlookup fields "text")).orElse
              (fun _ => ((jlookup fields "message").orElse (fun _ => jlookup fields "response"))) with
          | some v => pyStr v
          | none => ""
      | _ => ""
  | none => payload

def isDoneLine (l : String) : Bool :=
  strStartsWith l DATA_PREFIX && pyStrip (strDropChars l 6) == "[DONE]"

/-- The text one event line contributes (empty lines contribute nothing,
matching the `if not line: continue` skip). -/
def line_fragment (parse : String → Option PyVal) (l : String) : String :=
  if l = "" then ""
  else if strStartsWith l DATA_PREFIX then sse_content_fragment parse (strDropChars l 6)
  else l

def strJoin : List String → String
  | [] => ""
  | s :: rest => s ++ strJoin rest

/-- Reassembly as the (amended) claim describes it: the fragments of the
lines before the `[DONE]` sentinel, concatenated in arrival order. -/
def sse_reassemble_spec (parse : String → Option PyVal) (lines : List String) : String :=
  strJoin ((lines.takeWhile (fun l => !isDoneLine l)).map (line_fragment parse))

/-- Model of `chat_contract` as the (amended) claim describes it. -/
def chat_contract_spec (parse : String → Option PyVal) (att : HttpAttempt) : PyVal :=
  match att with
  | .exn e => .obj [("error", .str e)]
  | .resp status lines body =>
      if status ≠ 200 then
        match parse body with
        | some j => .obj [("error", j)]
        | none => .obj [("error", .str ("HTTP " ++ toString status ++ ": " ++ body))]
      else
        let full := sse_reassemble_spec parse lines
        if pyStrip full ≠ "" then .obj [("response", .str (pyStrip full))]
        else
          match parse body with
          | some j => j
          | none => .obj [("error", .str "No valid response received")]

/-- Model of `chat_contract` with the fragment extraction taken literally from the
claim (first PRESENT key), for the counterexample. -/
def chat_contract_claimed (parse : String → Option PyVal) (att : HttpAttempt) : PyVal :=
  match att with
  | .exn e => .obj [("error", .str e)]
  | .resp status lines body =>
      if status ≠ 200 then
        match parse body with
        | some j => .obj [("error", j)]
        | none => .obj [("error", .str ("HTTP " ++ toString status ++ ": " ++ body))]
      else
        let full := strJoin ((lines.takeWhile (fun l => !isDoneLine l)).map
          (fun l =>
            if l = "" then ""
            else if strStartsWith l DATA_PREFIX then sse_claim_fragment parse (strDropChars l 6)
            else l))
        if pyStrip full ≠ "" then .obj [("response", .str (pyStrip full))]
        else
          match parse body with
          | some j => j
          | none => .obj [("error", .str "No valid response received")]

/-! ## Server chat dispatch

From `src/bevor_mcp/server.py`.  `_handle_chat_request` — shared by
`security_chat`, `functionality_chat` and `explain_code` — invokes
`c.chat_contract(message)` with a single positional argument, while
`BevorApiClient.chat_contract(self, chat_id, message)` declares two
required positional parameters and no defaults.  Python call binding is
modelled by its required/supplied argument counts. -/

def chat_contract_required_positional_params : Nat := 2

def handle_chat_request_supplied_args : Nat := 1

/-- A Python call binds (does not raise `TypeError`) iff it supplies
exactly the required positional parameters (no defaults, no varargs in
`chat_contract`). -/
def pythonCallBinds (required supplied : Nat) : Bool := supplied == required

/-! ## Server: double-checked lazy initialization

From `src/bevor_mcp/server.py`, `_ensure_client_initialized_async`.  Each
caller of the guard is a coroutine; asyncio interleaves coroutines at
`await` points only, and this model is coarser (it allows interleaving at
every labelled step), so safety proved here covers every asyncio
schedule.  `calls` counts executions of `await client.create()` — one
bootstrap sequence (upload + chat open) each.  Caller program counters:

  start — about to run the fast-path `if _initialized` check;
  wait  — about to `async with _init_lock` (blocks while the lock is held);
  check — holds the lock, about to re-check `_initialized`;
  run   — holds the lock, about to `await client.create()`;
  setf  — holds the lock, about to set `_initialized = True` and release;
  done  — returned from `_ensure_client_initialized_async`. -/

inductive GuardPC where
  | start
  | wait
  | check
  | run
  | setf
  | done
deriving DecidableEq

structure GuardState where
  flag : Bool
  lock : Bool
  calls : Nat
  pcs : Nat → GuardPC

def initGuardState : GuardState :=
  { flag := false, lock := false, calls := 0, pcs := fun _ => .start }

def setPC (pcs : Nat → GuardPC) (i : Nat) (v : GuardPC) : Nat → GuardPC :=
  fun j => if j = i then v else pcs j

inductive GuardStep : GuardState → GuardState → Prop where
  | fastTrue (s : GuardState) (i : Nat) :
      s.pcs i = .start → s.flag = true →
      GuardStep s { s with pcs := setPC s.pcs i .done }
  | fastFalse (s : GuardState) (i : Nat) :
      s.pcs i = .start → s.flag = false →
      GuardStep s { s with pcs := setPC s.pcs i .wait }
  | acquire (s : GuardState) (i : Nat) :
      s.pcs i = .wait → s.lock = false →
      GuardStep s { s with lock := true, pcs := setPC s.pcs i .check }
  | checkTrue (s : GuardState) (i : Nat) :
      s.pcs i = .check → s.flag = true →
      GuardStep s { s with lock := false, pcs := setPC s.pcs i .done }
  | checkFalse (s : GuardState) (i : Nat) :
      s.pcs i = .check → s.flag = false →
      GuardStep s { s with pcs := setPC s.pcs i .run }
  | runCreate (s : GuardState) (i : Nat) :
      s.pcs i = .run →
      GuardStep s { s with calls := s.calls + 1, pcs := setPC s.pcs i .setf }
  | setFlag (s : GuardState) (i : Nat) :
      s.pcs i = .setf →
      GuardStep s { s with flag := true, lock := false, pcs := setPC s.pcs i .done }

inductive GuardReachable : GuardState → Prop where
  | init : GuardReachable initGuardState
  | step (s t : GuardState) : GuardReachable s → GuardStep s t → GuardReachable t

/-- Inside the exclusive section. -/
def inLock (pc : GuardPC) : Bool :=
  pc = .check || pc = .run || pc = .setf

/-- The inductive invariant of the checked-locked-checked guard. -/
structure GuardInv (s : GuardState) : Prop where
  excl : ∀ i j, inLock (s.pcs i) = true → inLock (s.pcs j) = true → i = j
  lockFree : s.lock = false → ∀ i, inLock (s.pcs i) = false
  runFlag : ∀ i, s.pcs i = .run → s.flag = false
  setfFlag : ∀ i, s.pcs i = .setf → s.flag = false
  callsSetf : ∀ i, s.pcs i = .setf → s.calls = 1
  callsNoSetf : (∀ i, s.pcs i ≠ .setf) → s.calls = (if s.flag then 1 else 0)
  doneFlag : ∀ i, s.pcs i = .done → s.flag = true

theorem setPC_self (pcs : Nat → GuardPC) (i : Nat) (v : GuardPC) : setPC pcs i v i = v := by
  simp [setPC]

theorem setPC_other (pcs : Nat → GuardPC) (i : Nat) (v : GuardPC) (j : Nat) (h : ¬ j = i) :
    setPC pcs i v j = pcs j := by
  simp [setPC, h]

theorem guardInv_init : GuardInv initGuardState := by
  refine ⟨?_, ?_, ?_, ?_, ?_, ?_, ?_⟩ <;> intro i <;> simp [initGuardState, inLock]

theorem guardInv_step (s t : GuardState) (hs : GuardInv s) (h : GuardStep s t) : GuardInv t := by
  cases h with
  | fastTrue i hpc hflag =>
      refine ⟨?_, ?_, ?_, ?_, ?_, ?_, ?_⟩ <;> dsimp only
      · intro a b ha hb
        by_cases hai : a = i
        · subst hai; rw [setPC_self] at ha; simp [inLock] at ha
        · by_cases hbi : b = i
          · subst hbi; rw [setPC_self] at hb; simp [inLock] at hb
          · rw [setPC_other _ _ _ _ hai] at ha; rw [setPC_other _ _ _ _ hbi] at hb
            exact hs.excl a b ha hb
      · intro hl a
        by_cases hai : a = i
        · subst hai; rw [setPC_self]; simp [inLock]
        · rw [setPC_other _ _ _ _ hai]; exact hs.lockFree hl a
      · intro a ha
        by_cases hai : a = i
        · subst hai; rw [setPC_self] at ha; exact GuardPC.noConfusion ha
        · rw [setPC_other _ _ _ _ hai] at ha; exact hs.runFlag a ha
      · intro a ha
        by_cases hai : a = i
        · subst hai; rw [setPC_self] at ha; exact GuardPC.noConfusion ha
        · rw [setPC_other _ _ _ _ hai] at ha; exact hs.setfFlag a ha
      · intro a ha
        by_cases hai : a = i
        · subst hai; rw [setPC_self] at ha; exact GuardPC.noConfusion ha
        · rw [setPC_other _ _ _ _ hai] at ha; exact hs.callsSetf a ha
      · intro hnone
        refine hs.callsNoSetf ?_
        intro a
        by_cases hai : a = i
        · subst hai; rw [hpc]; exact fun hx => GuardPC.noConfusion hx
        · have := hnone a; rwa [setPC_other _ _ _ _ hai] at this
      · intro a ha
        by_cases hai : a = i
        · exact hflag
        · rw [setPC_other _ _ _ _ hai] at ha; exact hs.doneFlag a ha
  | fastFalse i hpc hflag =>
      refine ⟨?_, ?_, ?_, ?_, ?_, ?_, ?_⟩ <;> dsimp only
      · intro a b ha hb
        by_cases hai : a = i
        · subst hai; rw [setPC_self] at ha; simp [inLock] at ha
        · by_cases hbi : b = i
          · subst hbi; rw [setPC_self] at hb; simp [inLock] at hb
          · rw [setPC_other _ _ _ _ hai] at ha; rw [setPC_other _ _ _ _ hbi] at hb
            exact hs.excl a b ha hb
      · intro hl a
        by_cases hai : a = i
        · subst hai; rw [setPC_self]; simp [inLock]
        · rw [setPC_other _ _ _ _ hai]; exact hs.lockFree hl a
      · intro a ha
        by_cases hai : a = i
        · subst hai; rw [setPC_self] at ha; exact GuardPC.noConfusion ha
        · rw [setPC_other _ _ _ _ hai] at ha; exact hs.runFlag a ha
      · intro a ha
        by_cases hai : a = i
        · subst hai; rw [setPC_self] at ha; exact GuardPC.noConfusion ha
        · rw [setPC_other _ _ _ _ hai] at ha; exact hs.setfFlag a ha
      · intro a ha
        by_cases hai : a = i
        · subst hai; rw [setPC_self] at ha; exact GuardPC.noConfusion ha
        · rw [setPC_other _ _ _ _ hai] at ha; exact hs.callsSetf a ha
      · intro hnone
        refine hs.callsNoSetf ?_
        intro a
        by_cases hai : a = i
        · subst hai; rw [hpc]; exact fun hx => GuardPC.noConfusion hx
        · have := hnone a; rwa [setPC_other _ _ _ _ hai] at this
      · intro a ha
        by_cases hai : a = i
        · subst hai; rw [setPC_self] at ha; exact GuardPC.noConfusion ha
        · rw [setPC_other _ _ _ _ hai] at ha; exact hs.doneFlag a ha
  | acquire i hpc hlock =>
      refine ⟨?_, ?_, ?_, ?_, ?_, ?_, ?_⟩ <;> dsimp only
      · intro a b ha hb
        by_cases hai : a = i
        · by_cases hbi : b = i
          · rw [hai, hbi]
          · rw [setPC_other _ _ _ _ hbi] at hb
            exact absurd hb (by simp [hs.lockFree hlock b])
        · rw [setPC_other _ _ _ _ hai] at ha
          exact absurd ha (by simp [hs.lockFree hlock a])
      · intro hl
        exact absurd hl (by simp)
      · intro a ha
        by_cases hai : a = i
        · subst hai; rw [setPC_self] at ha; exact GuardPC.noConfusion ha
        · rw [setPC_other _ _ _ _ hai] at ha; exact hs.runFlag a ha
      · intro a ha
        by_cases hai : a = i
        · subst hai; rw [setPC_self] at ha; exact GuardPC.noConfusion ha
        · rw [setPC_other _ _ _ _ hai] at ha; exact hs.setfFlag a ha
      · intro a ha
        by_cases hai : a = i
        · subst hai; rw [setPC_self] at ha; exact GuardPC.noConfusion ha
        · rw [setPC_other _ _ _ _ hai] at ha; exact hs.callsSetf a ha
      · intro hnone
        refine hs.callsNoSetf ?_
        intro a
        by_cases hai : a = i
        · subst hai; rw [hpc]; exact fun hx => GuardPC.noConfusion hx
        · have := hnone a; rwa [setPC_other _ _ _ _ hai] at this
      · intro a ha
        by_cases hai : a = i
        · subst hai; rw [setPC_self] at ha; exact GuardPC.noConfusion ha
        · rw [setPC_other _ _ _ _ hai] at ha; exact hs.doneFlag a ha
  | checkTrue i hpc hflag =>
      have hInI : inLock (s.pcs i) = true := by rw [hpc]; rfl
      refine ⟨?_, ?_, ?_, ?_, ?_, ?_, ?_⟩ <;> dsimp only
      · intro a b ha hb
        by_cases hai : a = i
        · subst hai; rw [setPC_self] at ha; simp [inLock] at ha
        · rw [setPC_other _ _ _ _ hai] at ha
          exact absurd (hs.excl a i ha hInI) hai
      · intro _ a
        by_cases hai : a = i
        · subst hai; rw [setPC_self]; rfl
        · rw [setPC_other _ _ _ _ hai]
          cases hb : inLock (s.pcs a) with
          | false => rfl
          | true => exact absurd (hs.excl a i hb hInI) hai
      · intro a ha
        by_cases hai : a = i
        · subst hai; rw [setPC_self] at ha; exact GuardPC.noConfusion ha
        · rw [setPC_other _ _ _ _ hai] at ha
          exact absurd hflag (by simp [hs.runFlag a ha])
      · intro a ha
        by_cases hai : a = i
        · subst hai; rw [setPC_self] at ha; exact GuardPC.noConfusion ha
        · rw [setPC_other _ _ _ _ hai] at ha
          exact absurd hflag (by simp [hs.setfFlag a ha])
      · intro a ha
        by_cases hai : a = i
        · subst hai; rw [setPC_self] at ha; exact GuardPC.noConfusion ha
        · rw [setPC_other _ _ _ _ hai] at ha
          exact absurd hflag (by simp [hs.setfFlag a ha])
      · intro hnone
        have : s.calls = if s.flag then 1 else 0 := by
          refine hs.callsNoSetf ?_
          intro a
          by_cases hai : a = i
          · subst hai; rw [hpc]; exact fun hx => GuardPC.noConfusion hx
          · have := hnone a; rwa [setPC_other _ _ _ _ hai] at this
        exact this
      · intro a _
        exact hflag
  | checkFalse i hpc hflag =>
      have hInI : inLock (s.pcs i) = true := by rw [hpc]; rfl
      refine ⟨?_, ?_, ?_, ?_, ?_, ?_, ?_⟩ <;> dsimp only
      · intro a b ha hb
        refine hs.excl a b ?_ ?_
        · by_cases hai : a = i
          · rw [hai]; exact hInI
          · rwa [setPC_other _ _ _ _ hai] at ha
        · by_cases hbi : b = i
          · rw [hbi]; exact hInI
          · rwa [setPC_other _ _ _ _ hbi] at hb
      · intro hl
        exact absurd (hs.lockFree hl i) (by simp [hInI])
      · intro a ha
        by_cases hai : a = i
        · exact hflag
        · rw [setPC_other _ _ _ _ hai] at ha; exact hs.runFlag a ha
      · intro a ha
        by_cases hai : a = i
        · subst hai; rw [setPC_self] at ha; exact GuardPC.noConfusion ha
        · rw [setPC_other _ _ _ _ hai] at ha; exact hs.setfFlag a ha
      · intro a ha
        by_cases hai : a = i
        · subst hai; rw [setPC_self] at ha; exact GuardPC.noConfusion ha
        · rw [setPC_other _ _ _ _ hai] at ha; exact hs.callsSetf a ha
      · intro hnone
        refine hs.callsNoSetf ?_
        intro a
        by_cases hai : a = i
        · subst hai; rw [hpc]; exact fun hx => GuardPC.noConfusion hx
        · have := hnone a; rwa [setPC_other _ _ _ _ hai] at this
      · intro a ha
        by_cases hai : a = i
        · subst hai; rw [setPC_self] at ha; exact GuardPC.noConfusion ha
        · rw [setPC_other _ _ _ _ hai] at ha; exact hs.doneFlag a ha
  | runCreate i hpc =>
      have hInI : inLock (s.pcs i) = true := by rw [hpc]; rfl
      have hflag : s.flag = false := hs.runFlag i hpc
      have hnoSetf : ∀ a, s.pcs a ≠ .setf := by
        intro a ha
        have hIn : inLock (s.pcs a) = true := by rw [ha]; rfl
        have : a = i := hs.excl a i hIn hInI
        rw [this, hpc] at ha
        exact GuardPC.noConfusion ha
      have hcalls0 : s.calls = 0 := by
        have := hs.callsNoSetf hnoSetf
        rwa [hflag] at this
      refine ⟨?_, ?_, ?_, ?_, ?_, ?_, ?_⟩ <;> dsimp only
      · intro a b ha hb
        refine hs.excl a b ?_ ?_
        · by_cases hai : a = i
          · rw [hai]; exact hInI
          · rwa [setPC_other _ _ _ _ hai] at ha
        · by_cases hbi : b = i
          · rw [hbi]; exact hInI
          · rwa [setPC_other _ _ _ _ hbi] at hb
      · intro hl
        exact absurd (hs.lockFree hl i) (by simp [hInI])
      · intro a ha
        by_cases hai : a = i
        · subst hai; rw [setPC_self] at ha; exact GuardPC.noConfusion ha
        · rw [setPC_other _ _ _ _ hai] at ha; exact hs.runFlag a ha
      · intro a _
        exact hflag
      · intro a _
        show s.calls + 1 = 1
        rw [hcalls0]
      · intro hnone
        exact absurd (setPC_self s.pcs i .setf) (hnone i)
      · intro a ha
        by_cases hai : a = i
        · subst hai; rw [setPC_self] at ha; exact GuardPC.noConfusion ha
        · rw [setPC_other _ _ _ _ hai] at ha; exact hs.doneFlag a ha
  | setFlag i hpc =>
      have hInI : inLock (s.pcs i) = true := by rw [hpc]; rfl
      refine ⟨?_, ?_, ?_, ?_, ?_, ?_, ?_⟩ <;> dsimp only
      · intro a b ha hb
        by_cases hai : a = i
        · subst hai; rw [setPC_self] at ha; simp [inLock] at ha
        · rw [setPC_other _ _ _ _ hai] at ha
          exact absurd (hs.excl a i ha hInI) hai
      · intro _ a
        by_cases hai : a = i
        · subst hai; rw [setPC_self]; rfl
        · rw [setPC_other _ _ _ _ hai]
          cases hb : inLock (s.pcs a) with
          | false => rfl
          | true => exact absurd (hs.excl a i hb hInI) hai
      · intro a ha
        by_cases hai : a = i
        · subst hai; rw [setPC_self] at ha; exact GuardPC.noConfusion ha
        · rw [setPC_other _ _ _ _ hai] at ha
          have hIn : inLock (s.pcs a) = true := by rw [ha]; rfl
          exact absurd (hs.excl a i hIn hInI) hai
      · intro a ha
        by_cases hai : a = i
        · subst hai; rw [setPC_self] at ha; exact GuardPC.noConfusion ha
        · rw [setPC_other _ _ _ _ hai] at ha
          have hIn : inLock (s.pcs a) = true := by rw [ha]; rfl
          exact absurd (hs.excl a i hIn hInI) hai
      · intro a ha
        by_cases hai : a = i
        · subst hai; rw [setPC_self] at ha; exact GuardPC.noConfusion ha
        · rw [setPC_other _ _ _ _ hai] at ha
          have hIn : inLock (s.pcs a) = true := by rw [ha]; rfl
          exact absurd (hs.excl a i hIn hInI) hai
      · intro _
        show s.calls = 1
        exact hs.callsSetf i hpc
      · intro a _
        rfl

theorem guardReachable_inv (s : GuardState) (h : GuardReachable s) : GuardInv s := by
  induction h with
  | init => exact guardInv_init
  | step s t _ hstep ih => exact guardInv_step s t ih hstep

/-! ## Theorems: double-checked initialization guard -/

/-- Claim C10: under any interleaving of any number of concurrent callers
of `_ensure_client_initialized_async`, the double-checked guard (fast-path
flag check, exclusive lock, re-check) lets `client.create()` — one
upload/chat-open bootstrap sequence — execute at most once, and a caller
only returns once the bootstrap has executed (so all callers await its
completion, and once any caller has returned the count is exactly one). -/
theorem bootstrap_executes_exactly_once (s : GuardState) (h : GuardReachable s) :
    s.calls ≤ 1 ∧ (∀ i, s.pcs i = GuardPC.done → s.calls = 1) := by
  have inv := guardReachable_inv s h
  constructor
  · by_cases hex : ∃ i, s.pcs i = GuardPC.setf
    · rcases hex with ⟨i, hi⟩
      exact le_of_eq (inv.callsSetf i hi)
    · push_neg at hex
      rw [inv.callsNoSetf hex]
      cases s.flag <;> simp
  · intro i hi
    have hflag := inv.doneFlag i hi
    have hnos : ∀ a, s.pcs a ≠ GuardPC.setf := by
      intro a ha
      have hsf := inv.setfFlag a ha
      rw [hflag] at hsf
      exact Bool.noConfusion hsf
    rw [inv.callsNoSetf hnos, hflag]
    rfl

def gw0 : GuardState := initGuardState

def gw1 : GuardState := { gw0 with pcs := setPC gw0.pcs 0 .wait }

def gw2 : GuardState := { gw1 with lock := true, pcs := setPC gw1.pcs 0 .check }

def gw3 : GuardState := { gw2 with pcs := setPC gw2.pcs 0 .run }

def gw4 : GuardState := { gw3 with calls := gw3.calls + 1, pcs := setPC gw3.pcs 0 .setf }

def gw5 : GuardState := { gw4 with flag := true, lock := false, pcs := setPC gw4.pcs 0 .done }

/-- A complete run of one caller through the guard. -/
theorem gw5_reachable : GuardReachable gw5 :=
  .step gw4 gw5
    (.step gw3 gw4
      (.step gw2 gw3
        (.step gw1 gw2
          (.step gw0 gw1 .init (.fastFalse gw0 0 rfl rfl))
          (.acquire gw1 0 rfl rfl))
        (.checkFalse gw2 0 rfl rfl))
      (.runCreate gw3 0 rfl))
    (.setFlag gw4 0 rfl)

/-- Witness for C10: after one caller runs the guard to completion the
bootstrap has been executed exactly once. -/
theorem bootstrap_executes_exactly_once_witness : gw5.calls ≤ 1 ∧ gw5.calls = 1 :=
  ⟨(bootstrap_executes_exactly_once gw5 gw5_reachable).1,
    (bootstrap_executes_exactly_once gw5 gw5_reachable).2 0 rfl⟩

/-! ## Theorems: server chat dispatch (C1) -/

/-- Claim C1 (code bug): the shared chat handler `_handle_chat_request`
invokes `c.chat_contract(message)` with one positional argument, while
`BevorApiClient.chat_contract` requires two (`chat_id`, `message`), so the
call never binds — Python raises `TypeError` on every chat request
(securityChat / functionalityChat / explainCode) before any request is
sent, and the exception propagates to the caller, contradicting the
structured-outcome contract the claim (and the repository's own
`MockBevorApiClient`, whose `chat_contract(message)` matches the server's
call) describe. -/
theorem chat_call_arity_mismatch :
    pythonCallBinds chat_contract_required_positional_params handle_chat_request_supplied_args
      = false
    ∧ handle_chat_request_supplied_args < chat_contract_required_positional_params := by
  constructor
  · rfl
  · decide

/-! ## Theorems: bootstrap state machine (C2, C5) -/

def c2_env : BootstrapEnv :=
  { projectResp := .obj [], versionResp := .obj [("id", .str "v1")],
    chatResp := .obj [("id", .str "c1")] }

def c2_state : ClientState :=
  { project_id := .null, contracts_folder_path := .str "contracts",
    version_mapping_id := .null, chat_id := .null }

/-- Counterexample for C2: with no supplied project id, a create-project
response carrying no id, and a contracts folder present, stage 1 extracts
nothing, yet the folder upload is NOT skipped — it runs with an empty
project id and stores the extracted version mapping id, so after this run
`version_mapping_id` is non-null while `project_id` is null, falsifying
the claimed dependency `version_mapping_id ≠ null → project_id ≠ null`
and the claim that later stages are skipped. -/
theorem create_upload_without_project_counterexample :
    truthy (create c2_state c2_env).version_mapping_id = true
    ∧ truthy (create c2_state c2_env).project_id = false
    ∧ (create c2_state c2_env).project_id = PyVal.null
    ∧ (create c2_state c2_env).version_mapping_id = PyVal.str "v1"
    ∧ truthy (create c2_state c2_env).chat_id = true
    ∧ envWF c2_env = true :=
  ⟨rfl, rfl, rfl, rfl, rfl, rfl⟩

/-- Claim C2 (amended): on a fresh client (null version mapping and chat
ids), after any run of bootstrap `chat_id` is truthy only if
`version_mapping_id` is truthy (the chat stage is guarded by the version
mapping id), and when no contracts folder path was supplied the upload and
chat stages are both skipped; the upload stage, however, is guarded only
by the contracts folder path, not by the project id, so
`version_mapping_id` can become non-null while `project_id` is null. -/
theorem create_stage_chain_amended (pid0 cfp : PyVal) (env : BootstrapEnv)
    (_hwf : envWF env = true) :
    (truthy (create (ClientState.mk pid0 cfp PyVal.null PyVal.null) env).chat_id = true →
      truthy (create (ClientState.mk pid0 cfp PyVal.null PyVal.null) env).version_mapping_id
        = true)
    ∧ (truthy cfp = false →
        (create (ClientState.mk pid0 cfp PyVal.null PyVal.null) env).version_mapping_id
          = PyVal.null
        ∧ (create (ClientState.mk pid0 cfp PyVal.null PyVal.null) env).chat_id = PyVal.null) := by
  constructor
  · intro hchat
    by_cases h1 : truthy pid0 <;> by_cases h2 : truthy cfp <;>
      by_cases h3 : truthy (extract_version_mapping_id env.versionResp) <;>
        by_cases h4 : isObj env.chatResp <;>
          simp [create, h1, h2, h3, h4, show truthy PyVal.null = false from rfl] at hchat ⊢
  · intro h2
    by_cases h1 : truthy pid0 <;> simp [create, h1, h2]

def c2_good_env : BootstrapEnv :=
  { projectResp := .obj [("id", .str "p")], versionResp := .obj [("id", .str "v")],
    chatResp := .obj [("id", .str "c")] }

/-- Witness for C2 (amended): a fully successful bootstrap has a truthy
chat id, and the theorem yields a truthy version mapping id. -/
theorem create_stage_chain_amended_witness :
    envWF c2_good_env = true
    ∧ truthy (create (ClientState.mk PyVal.null (PyVal.str "contracts") PyVal.null PyVal.null)
        c2_good_env).chat_id = true
    ∧ truthy (create (ClientState.mk PyVal.null (PyVal.str "contracts") PyVal.null PyVal.null)
        c2_good_env).version_mapping_id = true :=
  ⟨rfl, rfl,
    (create_stage_chain_amended PyVal.null (PyVal.str "contracts") c2_good_env rfl).1 rfl⟩

def c5_env : BootstrapEnv :=
  { projectResp := .obj [("data", .obj [("id", .str "p1")])], versionResp := .null,
    chatResp := .null }

/-- Counterexample for C5: a create-project response carrying the id only
under a `data` envelope.  Stage 1 probes only the top-level keys `id` and
`project_id`, so `project_id` stays null instead of being set to `"p1"` as
the claim requires. -/
theorem create_project_id_data_envelope_counterexample :
    (create (ClientState.mk PyVal.null PyVal.null PyVal.null PyVal.null) c5_env).project_id
      = PyVal.null
    ∧ PyVal.null ≠ PyVal.str "p1"
    ∧ envWF c5_env = true :=
  ⟨rfl, fun h => PyVal.noConfusion h, rfl⟩

/-- Claim C5 (amended): on a fresh client, stage 1 stores a project id
exactly when one is present (truthy) under the top-level key `id` or,
failing that, under the top-level key `project_id`; a `data` envelope is
not consulted, and when neither key holds a truthy value `project_id`
remains null. -/
theorem create_project_id_extraction_amended (env : BootstrapEnv) (_hwf : envWF env = true) :
    (truthy (pyDictGet (pyOrEmptyObj env.projectResp) "id") = true →
      (create (ClientState.mk PyVal.null PyVal.null PyVal.null PyVal.null) env).project_id
        = pyDictGet (pyOrEmptyObj env.projectResp) "id")
    ∧ (truthy (pyDictGet (pyOrEmptyObj env.projectResp) "id") = false →
        truthy (pyDictGet (pyOrEmptyObj env.projectResp) "project_id") = true →
        (create (ClientState.mk PyVal.null PyVal.null PyVal.null PyVal.null) env).project_id
          = pyDictGet (pyOrEmptyObj env.projectResp) "project_id")
    ∧ (truthy (pyDictGet (pyOrEmptyObj env.projectResp) "id") = false →
        truthy (pyDictGet (pyOrEmptyObj env.projectResp) "project_id") = false →
        (create (ClientState.mk PyVal.null PyVal.null PyVal.null PyVal.null) env).project_id
          = PyVal.null) := by
  have hres :
      (create (ClientState.mk PyVal.null PyVal.null PyVal.null PyVal.null) env).project_id
        = stage1_project_id PyVal.null env.projectResp := rfl
  refine ⟨?_, ?_, ?_⟩
  · intro h1
    rw [hres]
    simp [stage1_project_id, pyOr, h1]
  · intro h1 h2
    rw [hres]
    simp [stage1_project_id, pyOr, h1, h2]
  · intro h1 h2
    rw [hres]
    simp [stage1_project_id, pyOr, h1, h2]

def c5_good_env : BootstrapEnv :=
  { projectResp := .obj [("project_id", .str "p9")], versionResp := .null, chatResp := .null }

/-- Witness for C5 (amended): an id under the top-level `project_id` key
is stored. -/
theorem create_project_id_extraction_amended_witness :
    envWF c5_good_env = true
    ∧ truthy (pyDictGet (pyOrEmptyObj c5_good_env.projectResp) "id") = false
    ∧ truthy (pyDictGet (pyOrEmptyObj c5_good_env.projectResp) "project_id") = true
    ∧ (create (ClientState.mk PyVal.null PyVal.null PyVal.null PyVal.null) c5_good_env).project_id
        = PyVal.str "p9" :=
  ⟨rfl, rfl, rfl, by
    have h := (create_project_id_extraction_amended c5_good_env rfl).2.1 rfl rfl
    rw [h]
    rfl⟩

/-! ## Theorems: folder-upload candidate probing (C3) -/

/-- Characterization of the probing loop: with no transport exceptions the
loop returns the (rendered) first non-404 response in attempt order, and
when every attempt returned 404 it returns the last response received. -/
theorem vcf_go_spec (f : String → String → ReqOutcome)
    (hno : ∀ p v, isExn (f p v) = false) :
    ∀ (l : List (String × String)) (last : Option ReqOutcome),
      vcf_go f l last =
        match l.find? (fun pv => outcomeStatus (f pv.1 pv.2) != 404) with
        | some pv => renderOutcome (f pv.1 pv.2)
        | none =>
            match l.getLast? with
            | some pv => renderOutcome (f pv.1 pv.2)
            | none =>
                match last with
                | some o => renderOutcome o
                | none => .obj [("error", .str "No response from versions endpoint")] := by
  intro l
  induction l with
  | nil => intro last; rfl
  | cons hd rest ih =>
      intro last
      obtain ⟨p, v⟩ := hd
      cases hfv : f p v with
      | exn e => exact absurd (hno p v) (by simp [hfv, isExn])
      | resp status b t =>
          by_cases h404 : status = 404
          · subst h404
            have hns : statusIsSuccess 404 = false := by decide
            have hstep : vcf_go f ((p, v) :: rest) last
                = vcf_go f rest (some (ReqOutcome.resp 404 b t)) := by
              simp [vcf_go, hfv, hns]
            have hp : ¬ ((fun pv => outcomeStatus (f pv.1 pv.2) != 404) ((p, v)) = true) := by
              simp [hfv, outcomeStatus]
            rw [hstep, ih (some (ReqOutcome.resp 404 b t)),
              @List.find?_cons_of_neg _ (fun pv => outcomeStatus (f pv.1 pv.2) != 404)
                (p, v) rest hp]
            cases hfind :
                List.find? (fun pv => outcomeStatus (f pv.1 pv.2) != 404) rest with
            | some q => simp only [hfind]
            | none =>
                simp only [hfind]
                cases rest with
                | nil => simp [hfv, renderOutcome]
                | cons hd2 rest2 =>
                    rw [List.getLast?_cons_cons]
                    cases hgl : (hd2 :: rest2).getLast? with
                    | some q => simp only [hgl]
                    | none =>
                        exact absurd (List.getLast?_eq_none_iff.mp hgl) (by simp)
          · have hpred : (status != 404) = true := by simp [h404]
            by_cases hsuc : statusIsSuccess status = true
            · simp [vcf_go, hfv, hsuc, List.find?, outcomeStatus, hpred, renderOutcome]
            · simp [vcf_go, hfv, hsuc, h404, List.find?, outcomeStatus, hpred, renderOutcome]

/-- Claim C3: `versions_create_folder` iterates the fixed ordered candidate
endpoint paths and, within each path, the fixed ordered multipart
field-name variants `files`, `contracts`, `sources`; with no transport
exception it returns the (rendered) body of the first attempt whose status
is not 404 — in particular the first 2xx-excluding-204 body when the
earlier attempts all 404ed, and any other non-2xx response as-is without
further retries — and when every attempt returned 404 it returns the last
response received (the final attempt, `/versions` with field `sources`). -/
theorem versions_create_folder_probing (f : String → String → ReqOutcome) (pid : String)
    (hno : ∀ p v, isExn (f p v) = false) :
    upload_attempts pid =
      [("/versions/create/folder", "files"), ("/versions/create/folder", "contracts"),
        ("/versions/create/folder", "sources"), ("/versions/create", "files"),
        ("/versions/create", "contracts"), ("/versions/create", "sources"),
        ("/projects/" ++ pid ++ "/versions", "files"),
        ("/projects/" ++ pid ++ "/versions", "contracts"),
        ("/projects/" ++ pid ++ "/versions", "sources"), ("/versions", "files"),
        ("/versions", "contracts"), ("/versions", "sources")]
    ∧ versions_create_folder f pid =
        (match (upload_attempts pid).find? (fun pv => outcomeStatus (f pv.1 pv.2) != 404) with
          | some pv => renderOutcome (f pv.1 pv.2)
          | none => renderOutcome (f "/versions" "sources")) := by
  constructor
  · rfl
  · rw [versions_create_folder, vcf_go_spec f hno (upload_attempts pid) none]
    cases hfind :
        (upload_attempts pid).find? (fun pv => outcomeStatus (f pv.1 pv.2) != 404) with
    | some pv => rfl
    | none => rfl

def all404 : String → String → ReqOutcome := fun _ _ => ReqOutcome.resp 404 none "nf"

/-- Witness for C3: when every candidate returns 404 the final attempt's
(rendered) response is returned. -/
theorem versions_create_folder_probing_witness :
    versions_create_folder all404 "P"
      = PyVal.obj [("status_code", PyVal.num 404), ("text", PyVal.str "nf")] := by
  rw [(versions_create_folder_probing all404 "P" (fun p v => rfl)).2]
  rfl

/-! ## Theorems: chat stream reassembly (C4) -/

theorem sseAccum_append_spec (parse : String → Option PyVal) :
    ∀ (lines : List String) (acc : String),
      sseAccum parse lines acc = acc ++ sse_reassemble_spec parse lines := by
  intro lines
  induction lines with
  | nil =>
      intro acc
      simp [sseAccum, sse_reassemble_spec, strJoin, String.append_empty]
  | cons l rest ih =>
      intro acc
      by_cases h1 : l = ""
      · subst h1
        simp [sseAccum, sse_reassemble_spec, isDoneLine, line_fragment, strJoin, ih,
          show strStartsWith "" DATA_PREFIX = false from rfl]
      · by_cases h2 : strStartsWith l DATA_PREFIX = true
        · by_cases h3 : pyStrip (strDropChars l 6) = "[DONE]"
          · simp [sseAccum, h1, h2, h3, sse_reassemble_spec, isDoneLine, strJoin,
              String.append_empty]
          · simp [sseAccum, h1, h2, h3, sse_reassemble_spec, isDoneLine, line_fragment,
              strJoin, ih, String.append_assoc]
        · simp [sseAccum, h1, h2, sse_reassemble_spec, isDoneLine, line_fragment,
            strJoin, ih, String.append_assoc]

def exampleParse : String → Option PyVal := fun s =>
  if s = "\x7b\"content\":\"Hello\"\x7d" then some (.obj [("content", .str "Hello")])
  else if s = "\x7b\"content\":\" world\"\x7d" then some (.obj [("content", .str " world")])
  else none

def exampleLines : List String :=
  ["data: \x7b\"content\":\"Hello\"\x7d", "data: \x7b\"content\":\" world\"\x7d",
    "data: [DONE]"]

/-- Claim C4 (amended): `chat_contract` reassembles the stream exactly as
described — fragments of the `data: `-prefixed lines (the value under the
first of the keys `content`, `text`, `message`, `response` whose value is
truthy/non-empty; the raw payload when it is not JSON), non-prefixed lines
verbatim, concatenated strictly in arrival order, stopping at the `[DONE]`
sentinel, with the result whitespace-trimmed, and falling back to parsing
the whole body as one JSON document when no text was accumulated; in
particular the documented example reassembles to `"Hello world"`. -/
theorem chat_contract_stream_reassembly :
    (∀ (parse : String → Option PyVal) (att : HttpAttempt),
      chat_contract parse att = chat_contract_spec parse att)
    ∧ chat_contract exampleParse (HttpAttempt.resp 200 exampleLines "")
        = PyVal.obj [("response", PyVal.str "Hello world")] := by
  constructor
  · intro parse att
    cases att with
    | exn e => rfl
    | resp status lines body =>
        simp only [chat_contract, chat_contract_spec, sseAccum_append_spec,
          String.empty_append]
  · rfl

def c4Payload : String := "\x7b\"content\":\"\",\"text\":\"x\"\x7d"

def c4Parse : String → Option PyVal := fun s =>
  if s = c4Payload then some (.obj [("content", .str ""), ("text", .str "x")]) else none

def c4Att : HttpAttempt := .resp 200 ["data: " ++ c4Payload, "data: [DONE]"] ""

/-- Counterexample for C4: a payload whose `content` key is present but
empty while `text` holds `"x"`.  The code's `or`-chain skips the falsy
`content` and appends `"x"`, whereas taking the value under the first
PRESENT key, as the claim words it, appends the empty string and ends in
the no-text fallback — so the claim as stated mispredicts the result. -/
theorem chat_stream_first_present_key_counterexample :
    chat_contract c4Parse c4Att = PyVal.obj [("response", PyVal.str "x")]
    ∧ chat_contract_claimed c4Parse c4Att
        = PyVal.obj [("error", PyVal.str "No valid response received")]
    ∧ chat_contract c4Parse c4Att ≠ chat_contract_claimed c4Parse c4Att := by
  refine ⟨rfl, rfl, fun h => ?_⟩
  exact Bool.noConfusion (congrArg (fun j => truthy (pyDictGet j "response")) h)
